import Mathlib

/-!
Shallow embedding of the checkout fan-out orchestration of
`handson-opentelemetry` (`src/back-end/main.go`, with the payload builder of
`src/shipping-gateway/main.go`).

The embedding models:
* the `Order` struct and the behaviour of `json.NewDecoder(body).Decode(&order)`
  (a recursive-descent reading of the FIRST JSON value of the body, ignoring
  anything after it; unknown object keys are ignored, missing keys leave the
  zero value, `null` leaves the zero value, a type mismatch is an error —
  mirroring Go `encoding/json`; numbers are modelled as integers and string
  escapes as the common subset, which only narrows which bodies decode),
* the payload strings built by `fmt.Sprintf` in `payment`, `shipping` and the
  shipping-gateway `send`,
* the handler's execution as the set of event traces it can produce: the
  decode gate, the sequential `payment` call, the two goroutines (`shipping`,
  `invoice`) whose events interleave arbitrarily, the unconditional join on
  the two channels, and the final response write.  Outcomes of the outbound
  HTTP calls are an environment parameter; the trace id carried by the otel
  context is a parameter `tid`, and — as `otelhttp.NewTransport` injects the
  current context — every outbound call event carries the context's trace id.
-/

namespace HandsOnOtel

/-- The `Order` struct of `src/back-end/main.go` (json tags
`name`, `address`, `payment`, `shipping`, `basket`). -/
structure Order where
  name : String
  address : String
  payment : String
  shipping : String
  basket : List String
deriving DecidableEq, Repr

/-- A JSON value (Go `encoding/json` data model, numbers restricted to
integers). -/
inductive Json where
  | null
  | bool (b : Bool)
  | num (n : Int)
  | str (s : String)
  | arr (vs : List Json)
  | obj (fs : List (String × Json))
deriving Repr

/-- JSON whitespace. -/
def isWs (c : Char) : Bool :=
  c = ' ' || c = '\t' || c = '\n' || c = '\r'

/-- Drop leading JSON whitespace. -/
def skipWs : List Char → List Char
  | [] => []
  | c :: cs => if isWs c then skipWs cs else c :: cs

/-- Read the body of a JSON string after the opening quote, handling the
common escapes. -/
def parseStringBody : List Char → Except String (String × List Char)
  | [] => .error "unexpected end of JSON input"
  | '"' :: cs => .ok ("", cs)
  | '\\' :: e :: cs =>
    if e = '"' ∨ e = '\\' ∨ e = '/' then
      match parseStringBody cs with
      | .ok (s, rest) => .ok (String.mk (e :: s.data), rest)
      | .error m => .error m
    else if e = 'n' ∨ e = 't' ∨ e = 'r' then
      match parseStringBody cs with
      | .ok (s, rest) =>
        .ok (String.mk ((if e = 'n' then '\n' else if e = 't' then '\t' else '\r') :: s.data), rest)
      | .error m => .error m
    else .error "invalid character in string escape code"
  | ['\\'] => .error "unexpected end of JSON input"
  | c :: cs =>
    match parseStringBody cs with
    | .ok (s, rest) => .ok (String.mk (c :: s.data), rest)
    | .error m => .error m

/-- Drop an expected literal character sequence. -/
def dropLit : List Char → List Char → Option (List Char)
  | [], cs => some cs
  | _ :: _, [] => none
  | p :: ps, c :: cs => if c = p then dropLit ps cs else none

/-- Accumulate decimal digits. -/
def digitsAux : List Char → Nat → Nat × List Char
  | [], acc => (acc, [])
  | c :: cs, acc => if c.isDigit then digitsAux cs (acc * 10 + (c.toNat - 48)) else (acc, c :: cs)

/-- Read a natural-number literal. -/
def parseNatNum : List Char → Option (Nat × List Char)
  | [] => none
  | c :: cs => if c.isDigit then some (digitsAux (c :: cs) 0) else none

mutual
/-- Read one JSON value from the front of the input, returning it together
with the unconsumed remainder (this is exactly what `json.Decoder.Decode`
consumes). -/
def parseValue : Nat → List Char → Except String (Json × List Char)
  | 0, _ => .error "value nesting too deep"
  | fuel + 1, cs =>
    match skipWs cs with
    | [] => .error "EOF"
    | c :: rest =>
      if c = '"' then
        match parseStringBody rest with
        | .ok (s, r) => .ok (.str s, r)
        | .error m => .error m
      else if c = '{' then parseObj fuel rest []
      else if c = '[' then parseArr fuel rest []
      else if c = 't' then
        match dropLit ['r', 'u', 'e'] rest with
        | some r => .ok (.bool true, r)
        | none => .error "invalid character in literal true"
      else if c = 'f' then
        match dropLit ['a', 'l', 's', 'e'] rest with
        | some r => .ok (.bool false, r)
        | none => .error "invalid character in literal false"
      else if c = 'n' then
        match dropLit ['u', 'l', 'l'] rest with
        | some r => .ok (.null, r)
        | none => .error "invalid character in literal null"
      else if c = '-' then
        match parseNatNum rest with
        | some (n, r) => .ok (.num (-(n : Int)), r)
        | none => .error "invalid character in numeric literal"
      else if c.isDigit then
        match parseNatNum (c :: rest) with
        | some (n, r) => .ok (.num (n : Int), r)
        | none => .error "invalid character in numeric literal"
      else .error "invalid character looking for beginning of value"

/-- Read the members of a JSON object after the opening brace. -/
def parseObj : Nat → List Char → List (String × Json) → Except String (Json × List Char)
  | 0, _, _ => .error "value nesting too deep"
  | fuel + 1, cs, acc =>
    match skipWs cs with
    | [] => .error "unexpected end of JSON input"
    | c :: rest =>
      if c = '}' then .ok (.obj acc.reverse, rest)
      else if c = '"' then
        match parseStringBody rest with
        | .error m => .error m
        | .ok (key, r₁) =>
          match skipWs r₁ with
          | ':' :: r₂ =>
            match parseValue fuel r₂ with
            | .error m => .error m
            | .ok (v, r₃) =>
              match skipWs r₃ with
              | ',' :: r₄ => parseObj fuel r₄ ((key, v) :: acc)
              | '}' :: r₄ => .ok (.obj (((key, v) :: acc).reverse), r₄)
              | _ => .error "invalid character after object key:value pair"
          | _ => .error "invalid character after object key"
      else .error "invalid character looking for beginning of object key string"

/-- Read the elements of a JSON array after the opening bracket. -/
def parseArr : Nat → List Char → List Json → Except String (Json × List Char)
  | 0, _, _ => .error "value nesting too deep"
  | fuel + 1, cs, acc =>
    match skipWs cs with
    | [] => .error "unexpected end of JSON input"
    | c :: rest =>
      if c = ']' then .ok (.arr acc.reverse, rest)
      else
        match parseValue fuel (c :: rest) with
        | .error m => .error m
        | .ok (v, r₁) =>
          match skipWs r₁ with
          | ',' :: r₂ => parseArr fuel r₂ (v :: acc)
          | ']' :: r₂ => .ok (.arr ((v :: acc).reverse), r₂)
          | _ => .error "invalid character after array element"
end

/-- Go object decoding assigns fields in order, so a duplicate key keeps its
last occurrence. -/
def lookupLast (k : String) : List (String × Json) → Option Json
  | [] => none
  | (k', v) :: fs =>
    match lookupLast k fs with
    | some v' => some v'
    | none => if k' = k then some v else none

/-- Unmarshal an (optional) field value into a Go `string`: absent or `null`
leaves the zero value `""`; anything but a JSON string is a type error. -/
def unmarshalStr (field : String) : Option Json → Except String String
  | none => .ok ""
  | some .null => .ok ""
  | some (.str s) => .ok s
  | some _ => .error ("json: cannot unmarshal value into Go struct field Order." ++ field)

/-- Unmarshal one array element into a Go `string`. -/
def elemToStr : Json → Except String String
  | .str s => .ok s
  | .null => .ok ""
  | _ => .error "json: cannot unmarshal value into Go struct field Order.basket"

/-- Unmarshal an (optional) field value into a Go `[]string`: absent or
`null` leaves the zero (nil) slice. -/
def unmarshalStrList : Option Json → Except String (List String)
  | none => .ok []
  | some .null => .ok []
  | some (.arr vs) => vs.mapM elemToStr
  | some _ => .error "json: cannot unmarshal value into Go struct field Order.basket"

/-- Unmarshal a decoded JSON value into `Order` (Go semantics: only an object
or `null` is accepted; unknown keys ignored, missing keys zero-valued). -/
def unmarshalOrder : Json → Except String Order
  | .null => .ok ⟨"", "", "", "", []⟩
  | .obj fs => do
    let name ← unmarshalStr "Name" (lookupLast "name" fs)
    let address ← unmarshalStr "Address" (lookupLast "address" fs)
    let payment ← unmarshalStr "Payment" (lookupLast "payment" fs)
    let shipping ← unmarshalStr "Shipping" (lookupLast "shipping" fs)
    let basket ← unmarshalStrList (lookupLast "basket" fs)
    .ok ⟨name, address, payment, shipping, basket⟩
  | _ => .error "json: cannot unmarshal value into Go value of type main.Order"

/-- Model of `json.NewDecoder(req.Body).Decode(&order)`: read the first JSON value of
the body (anything after it is not looked at) and unmarshal it into `Order`. -/
def decodeOrder (body : String) : Except String Order :=
  match parseValue (2 * body.length + 2) body.data with
  | .error m => .error m
  | .ok (v, _trailing) => unmarshalOrder v

/-! ### Payload builders (`fmt.Sprintf` string interpolation) -/

/-- The amount written into the payment payload.  The source hardcodes the
literal `12`; the `calcAmount(ctx, order.Basket)` call next to it is commented
out (`src/back-end/main.go:163`). -/
def paymentAmount : Int := 12

/-- The payload `payment` builds:
`fmt.Sprintf("{\"name\":\"%s\", \"amount\":%d, \"method\":\"%s\"}", order.Name, 12, order.Payment)`. -/
def paymentPayload (o : Order) : String :=
  "\x7b\"name\":\"" ++ o.name ++ "\", \"amount\":" ++ toString paymentAmount
    ++ ", \"method\":\"" ++ o.payment ++ "\"\x7d"

/-- The payload the `shipping` goroutine builds:
`fmt.Sprintf("{\"address\":\"%s\", \"vendor\":\"%s\", \"basket\":[\"%s\"]}", order.Address, order.Shipping, strings.Join(order.Basket, "\",\""))`. -/
def shippingPayload (o : Order) : String :=
  "\x7b\"address\":\"" ++ o.address ++ "\", \"vendor\":\"" ++ o.shipping
    ++ "\", \"basket\":[\"" ++ String.intercalate "\",\"" o.basket ++ "\"]\x7d"

/-- The shipping-gateway `send` payload:
`fmt.Sprintf("{\"address\":\"%s\", \"basket\":[\"%s\"]}", shipping.Address, strings.Join(shipping.Basket, "\",\""))`
(`src/shipping-gateway/main.go:136`). -/
def gatewaySendPayload (address : String) (basket : List String) : String :=
  "\x7b\"address\":\"" ++ address ++ "\", \"basket\":[\""
    ++ String.intercalate "\",\"" basket ++ "\"]\x7d"

/-- The total `calcAmount` computes: `len(basket) * rand.Intn(500)`, with the random
factor as an explicit parameter (`src/back-end/main.go:252`).  This function
is defined in the source but its only call site is commented out. -/
def calcAmountTotal (basket : List String) (randomFactor : Nat) : Nat :=
  basket.length * randomFactor

/-- The checkout handler's 200 response body:
`fmt.Sprintf("{\"trace-id\": \"%v\"}\n", traceId)`. -/
def respBody (tid : String) : String :=
  "\x7b\"trace-id\": \"" ++ tid ++ "\"\x7d\n"

/-! ### Events and traces -/

/-- The two HTTP collaborators the back-end calls. -/
inductive Collab where
  | paymentGw
  | shippingGw
deriving DecidableEq, Repr

/-- The two concurrent legs joined by the handler's channels. -/
inductive Leg where
  | shippingLeg
  | invoiceLeg
deriving DecidableEq, Repr

/-- The observable outcome of one outbound HTTP call (`httpClient.Do`):
either the transport failed (`err != nil`) or a response with some status
code was received. -/
inductive CollabResult where
  | transportError (msg : String)
  | httpStatus (code : Nat)
deriving DecidableEq, Repr

/-- A span-event attribute (`trace.WithAttributes(...)`). -/
inductive Attr where
  | noAttr
  | strAttr (key val : String)
  | intAttr (key : String) (n : Nat)
deriving DecidableEq, Repr

/-- One observable step of the handler's execution. -/
inductive Event where
  | spanEvent (name : String) (attr : Attr)
  | callIssued (c : Collab) (traceId payload : String)
  | callOutcome (c : Collab) (res : CollabResult)
  | legDone (l : Leg) (flag : Bool)
  | respond (status : Nat) (body : String)
deriving DecidableEq, Repr

/-- The span events `payment` records after observing its call's outcome
(`src/back-end/main.go:170-181`). -/
def classifyEventsPayment : CollabResult → List Event
  | .transportError e => [.spanEvent "Error sending request" (.strAttr "err" e)]
  | .httpStatus s =>
    if s = 200 then [.spanEvent "Successfully payment handeled" .noAttr]
    else [.spanEvent "Error Payment Gateway" (.intAttr "status" s)]

/-- The events of the sequential `payment(ctx, order)` call: issue the POST
(the otel transport injects the context's trace id), observe the outcome,
record the classification event. -/
def paymentEvents (tid : String) (o : Order) (res : CollabResult) : List Event :=
  .callIssued .paymentGw tid (paymentPayload o) ::
  .callOutcome .paymentGw res ::
  classifyEventsPayment res

/-- The boolean the shipping goroutine sends on its channel: `false` on a
transport error, `true` whenever any HTTP response was received — the status
code is not consulted (`src/back-end/main.go:198-212`). -/
def shippingFlag : CollabResult → Bool
  | .transportError _ => false
  | .httpStatus _ => true

/-- The span events the shipping goroutine records after its call's outcome
(`src/back-end/main.go:198-209`). -/
def classifyEventsShipping : CollabResult → List Event
  | .transportError e => [.spanEvent "Error sending request" (.strAttr "err" e)]
  | .httpStatus s =>
    if s = 200 then [.spanEvent "Successfully shipping handeled" .noAttr]
    else [.spanEvent "Error Shipping Gateway" (.intAttr "status" s)]

/-- The event sequence of the shipping goroutine: issue the POST, observe the
outcome, record the classification event, send the flag. -/
def shippingEvents (tid : String) (o : Order) (res : CollabResult) : List Event :=
  .callIssued .shippingGw tid (shippingPayload o) ::
  .callOutcome .shippingGw res ::
  (classifyEventsShipping res ++ [.legDone .shippingLeg (shippingFlag res)])

/-- The event sequence of the invoice goroutine: no collaborator call, two
span events around a simulated delay, then send `true`
(`src/back-end/main.go:218-235`). -/
def invoiceEvents : List Event :=
  [.spanEvent "Start generating invoice" .noAttr,
   .spanEvent "Successfully invoice generated" .noAttr,
   .legDone .invoiceLeg true]

/-- The events of the decode-failure branch: record the error on the span,
answer 400 with `http.Error` (which appends a newline to the message)
(`src/back-end/main.go:125-128`). -/
def decodeFailEvents (e : String) : List Event :=
  [.spanEvent "Error decoding order json" (.strAttr "err" e),
   .respond 400 (e ++ "\n")]

/-- The environment: outcomes of the two outbound HTTP calls of one request. -/
structure Env where
  paymentRes : CollabResult
  shippingRes : CollabResult

/-- Predicate `Interleave xs ys zs`: `zs` is an order-preserving merge of `xs` and
`ys` — the possible schedules of two concurrent event sequences. -/
inductive Interleave {α : Type} : List α → List α → List α → Prop where
  | nil : Interleave [] [] []
  | left {x : α} {xs ys zs : List α} :
      Interleave xs ys zs → Interleave (x :: xs) ys (x :: zs)
  | right {y : α} {xs ys zs : List α} :
      Interleave xs ys zs → Interleave xs (y :: ys) (y :: zs)

/-- The set of event traces `checkoutHandler` can produce on a request with
body `body`, inbound trace id `tid` and call outcomes `env`
(`src/back-end/main.go:110-142`): on decode failure the fixed rejection
sequence; otherwise the sequential payment events, then any interleaving of
the two goroutines' events (the handler joins on both channels before
continuing), then the single 200 response write. -/
def HandlerTrace (tid : String) (body : String) (env : Env) (t : List Event) : Prop :=
  (∃ e, decodeOrder body = .error e ∧ t = decodeFailEvents e) ∨
  (∃ o, decodeOrder body = .ok o ∧
    ∃ w, Interleave (shippingEvents tid o env.shippingRes) invoiceEvents w ∧
      t = paymentEvents tid o env.paymentRes ++ w ++ [.respond 200 (respBody tid)])

/-- Predicate `Before a b t`: event `a` occurs strictly before event `b` in trace `t`. -/
def Before (a b : Event) (t : List Event) : Prop :=
  ∃ l m r, t = l ++ a :: m ++ b :: r

/-- Recognize the response-write event. -/
def isRespond : Event → Bool
  | .respond _ _ => true
  | _ => false

/-- Recognize an outbound HTTP request event. -/
def isCallIssued : Event → Bool
  | .callIssued _ _ _ => true
  | _ => false

/-- The three outcome kinds of §4.1 of the spec, as the code's branching
distinguishes them: `err != nil` / `status == 200` / otherwise. -/
inductive Kind where
  | transport_error
  | rejected
  | ok
deriving DecidableEq, Repr

/-- Classify a call outcome into its kind. -/
def classify : CollabResult → Kind
  | .transportError _ => .transport_error
  | .httpStatus s => if s = 200 then .ok else .rejected

/-! ### Helper lemmas -/

theorem interleave_nil_left {α : Type} (ys : List α) : Interleave [] ys ys := by
  induction ys with
  | nil => exact .nil
  | cons y ys ih => exact .right ih

theorem interleave_nil_right {α : Type} (xs : List α) : Interleave xs [] xs := by
  induction xs with
  | nil => exact .nil
  | cons x xs ih => exact .left ih

theorem interleave_append {α : Type} (xs ys : List α) : Interleave xs ys (xs ++ ys) := by
  induction xs with
  | nil => simpa using interleave_nil_left ys
  | cons x xs ih => exact .left ih

theorem interleave_append_swap {α : Type} (xs ys : List α) : Interleave xs ys (ys ++ xs) := by
  induction ys with
  | nil => simpa using interleave_nil_right xs
  | cons y ys ih => exact .right ih

theorem Interleave.mem {α : Type} {xs ys zs : List α} (h : Interleave xs ys zs) :
    ∀ a ∈ zs, a ∈ xs ∨ a ∈ ys := by
  induction h with
  | nil => intro a ha; cases ha
  | left _ ih =>
    intro a ha
    rcases List.mem_cons.mp ha with rfl | ha
    · exact Or.inl (List.mem_cons_self _ _)
    · rcases ih a ha with h | h
      · exact Or.inl (List.mem_cons_of_mem _ h)
      · exact Or.inr h
  | right _ ih =>
    intro a ha
    rcases List.mem_cons.mp ha with rfl | ha
    · exact Or.inr (List.mem_cons_self _ _)
    · rcases ih a ha with h | h
      · exact Or.inl h
      · exact Or.inr (List.mem_cons_of_mem _ h)

theorem Interleave.mem_left {α : Type} {xs ys zs : List α} (h : Interleave xs ys zs) :
    ∀ a ∈ xs, a ∈ zs := by
  induction h with
  | nil => intro a ha; cases ha
  | left _ ih =>
    intro a ha
    rcases List.mem_cons.mp ha with rfl | ha
    · exact List.mem_cons_self _ _
    · exact List.mem_cons_of_mem _ (ih a ha)
  | right _ ih => intro a ha; exact List.mem_cons_of_mem _ (ih a ha)

theorem Interleave.mem_right {α : Type} {xs ys zs : List α} (h : Interleave xs ys zs) :
    ∀ a ∈ ys, a ∈ zs := by
  induction h with
  | nil => intro a ha; cases ha
  | left _ ih => intro a ha; exact List.mem_cons_of_mem _ (ih a ha)
  | right _ ih =>
    intro a ha
    rcases List.mem_cons.mp ha with rfl | ha
    · exact List.mem_cons_self _ _
    · exact List.mem_cons_of_mem _ (ih a ha)

theorem mem_classifyPayment {x : Event} {res : CollabResult}
    (hx : x ∈ classifyEventsPayment res) : ∃ n a, x = .spanEvent n a := by
  cases res with
  | transportError e =>
    simp [classifyEventsPayment] at hx
    exact ⟨_, _, hx⟩
  | httpStatus s =>
    by_cases hs : s = 200 <;> simp [classifyEventsPayment, hs] at hx <;> exact ⟨_, _, hx⟩

theorem mem_classifyShipping {x : Event} {res : CollabResult}
    (hx : x ∈ classifyEventsShipping res) : ∃ n a, x = .spanEvent n a := by
  cases res with
  | transportError e =>
    simp [classifyEventsShipping] at hx
    exact ⟨_, _, hx⟩
  | httpStatus s =>
    by_cases hs : s = 200 <;> simp [classifyEventsShipping, hs] at hx <;> exact ⟨_, _, hx⟩

theorem mem_paymentEvents {x : Event} {tid : String} {o : Order} {res : CollabResult}
    (hx : x ∈ paymentEvents tid o res) :
    x = .callIssued .paymentGw tid (paymentPayload o) ∨
    x = .callOutcome .paymentGw res ∨ (∃ n a, x = .spanEvent n a) := by
  simp only [paymentEvents, List.mem_cons] at hx
  rcases hx with rfl | rfl | hx
  · exact Or.inl rfl
  · exact Or.inr (Or.inl rfl)
  · exact Or.inr (Or.inr (mem_classifyPayment hx))

theorem mem_shippingEvents {x : Event} {tid : String} {o : Order} {res : CollabResult}
    (hx : x ∈ shippingEvents tid o res) :
    x = .callIssued .shippingGw tid (shippingPayload o) ∨
    x = .callOutcome .shippingGw res ∨ (∃ n a, x = .spanEvent n a) ∨
    x = .legDone .shippingLeg (shippingFlag res) := by
  simp only [shippingEvents, List.mem_cons, List.mem_append, List.mem_singleton] at hx
  rcases hx with rfl | rfl | hx | rfl | h
  · exact Or.inl rfl
  · exact Or.inr (Or.inl rfl)
  · exact Or.inr (Or.inr (Or.inl (mem_classifyShipping hx)))
  · exact Or.inr (Or.inr (Or.inr rfl))
  · cases h

theorem mem_invoiceEvents {x : Event} (hx : x ∈ invoiceEvents) :
    (∃ n, x = .spanEvent n .noAttr) ∨ x = .legDone .invoiceLeg true := by
  simp only [invoiceEvents, List.mem_cons] at hx
  rcases hx with rfl | rfl | hx
  · exact Or.inl ⟨_, rfl⟩
  · exact Or.inl ⟨_, rfl⟩
  · simp at hx
    subst hx
    exact Or.inr rfl

/-- Shape of a trace when the body decodes. -/
theorem handlerTrace_ok {tid body : String} {env : Env} {t : List Event} {o : Order}
    (hdec : decodeOrder body = .ok o) (ht : HandlerTrace tid body env t) :
    ∃ w, Interleave (shippingEvents tid o env.shippingRes) invoiceEvents w ∧
      t = paymentEvents tid o env.paymentRes ++ w ++ [.respond 200 (respBody tid)] := by
  rcases ht with ⟨e, he, _⟩ | ⟨o', ho, w, hw, hteq⟩
  · rw [hdec] at he; cases he
  · rw [hdec] at ho
    cases ho
    exact ⟨w, hw, hteq⟩

/-- Shape of a trace when the body fails to decode. -/
theorem handlerTrace_err {tid body : String} {env : Env} {t : List Event} {e : String}
    (hdec : decodeOrder body = .error e) (ht : HandlerTrace tid body env t) :
    t = decodeFailEvents e := by
  rcases ht with ⟨e', he', hteq⟩ | ⟨o', ho, _⟩
  · rw [hdec] at he'
    cases he'
    exact hteq
  · rw [hdec] at ho; cases ho

/-- In the decode-ok trace set, the only response event is the final 200. -/
theorem trace_respond_ok {tid body : String} {env : Env} {t : List Event} {o : Order}
    (hdec : decodeOrder body = .ok o) (ht : HandlerTrace tid body env t) :
    ∀ s b, Event.respond s b ∈ t → s = 200 ∧ b = respBody tid := by
  obtain ⟨w, hw, rfl⟩ := handlerTrace_ok hdec ht
  intro s b hmem
  simp only [List.mem_append, List.mem_singleton] at hmem
  rcases hmem with (hmem | hmem) | hmem
  · rcases mem_paymentEvents hmem with h | h | ⟨n, a, h⟩ <;> cases h
  · rcases hw.mem _ hmem with h | h
    · rcases mem_shippingEvents h with h | h | ⟨n, a, h⟩ | h <;> cases h
    · rcases mem_invoiceEvents h with ⟨n, h⟩ | h <;> cases h
  · cases hmem
    exact ⟨rfl, rfl⟩

/-- A decode-ok trace ends with the 200 response write. -/
theorem trace_getLast_ok {tid body : String} {env : Env} {t : List Event} {o : Order}
    (hdec : decodeOrder body = .ok o) (ht : HandlerTrace tid body env t) :
    t.getLast? = some (.respond 200 (respBody tid)) := by
  obtain ⟨w, _, rfl⟩ := handlerTrace_ok hdec ht
  simp [List.getLast?_append]

/-- C4: a body that fails to decode is answered with 400 carrying the
decoder's error text (plus the newline `http.Error` appends), no outbound
call is issued, and the rejection sequence is the whole trace; conversely a
400 response occurs only when decoding failed. -/
theorem C4_decode_gate (tid body : String) (env : Env) (t : List Event)
    (ht : HandlerTrace tid body env t) :
    (∀ e, decodeOrder body = .error e →
      t = decodeFailEvents e ∧
      t.getLast? = some (.respond 400 (e ++ "\n")) ∧
      (∀ c tid' p, Event.callIssued c tid' p ∉ t)) ∧
    (∀ s b, Event.respond s b ∈ t → s = 400 →
      ∃ e, decodeOrder body = .error e ∧ b = e ++ "\n") := by
  constructor
  · intro e he
    obtain rfl := handlerTrace_err he ht
    refine ⟨rfl, by simp [decodeFailEvents], ?_⟩
    intro c tid' p hmem
    simp [decodeFailEvents] at hmem
  · intro s b hmem h400
    rcases ht with ⟨e, he, rfl⟩ | ⟨o, ho, w, hw, rfl⟩
    · simp only [decodeFailEvents, List.mem_cons] at hmem
      rcases hmem with h | h | h
      · cases h
      · cases h
        exact ⟨e, he, rfl⟩
      · simp at h
    · have := trace_respond_ok ho (Or.inr ⟨o, ho, w, hw, rfl⟩) s b hmem
      omega

/-- Witness for C4 at the concrete malformed body `"not-json"`. -/
theorem C4_decode_gate_witness :
    (decodeFailEvents "invalid character in literal null").getLast? =
      some (.respond 400 ("invalid character in literal null" ++ "\n")) := by
  have h := C4_decode_gate "t0" "not-json" ⟨.httpStatus 200, .httpStatus 200⟩
      (decodeFailEvents "invalid character in literal null")
      (Or.inl ⟨"invalid character in literal null", rfl, rfl⟩)
  exact (h.1 "invalid character in literal null" rfl).2.1

/-- Interleaving preserves `countP`. -/
theorem interleave_countP {α : Type} {xs ys zs : List α} (p : α → Bool)
    (h : Interleave xs ys zs) : zs.countP p = xs.countP p + ys.countP p := by
  induction h with
  | nil => rfl
  | left _ ih => simp [List.countP_cons, ih]; omega
  | right _ ih => simp [List.countP_cons, ih]; omega

/-- Both payment events precede any event of the fan-out window. -/
theorem before_payment_of_mem {x last : Event} {tid : String} {o : Order}
    {res : CollabResult} {w : List Event} (hx : x ∈ w) :
    Before (.callIssued .paymentGw tid (paymentPayload o)) x
      (paymentEvents tid o res ++ w ++ [last]) ∧
    Before (.callOutcome .paymentGw res) x
      (paymentEvents tid o res ++ w ++ [last]) := by
  obtain ⟨w₁, w₂, rfl⟩ := List.append_of_mem hx
  constructor
  · exact ⟨[], .callOutcome .paymentGw res :: (classifyEventsPayment res ++ w₁),
      w₂ ++ [last], by simp [paymentEvents]⟩
  · exact ⟨[.callIssued .paymentGw tid (paymentPayload o)],
      classifyEventsPayment res ++ w₁, w₂ ++ [last], by simp [paymentEvents]⟩

/-- Any event of the fan-out window precedes the final event. -/
theorem before_last_of_mem {x last : Event} {pe w : List Event} (hx : x ∈ w) :
    Before x last (pe ++ w ++ [last]) := by
  obtain ⟨w₁, w₂, rfl⟩ := List.append_of_mem hx
  exact ⟨pe ++ w₁, w₂, [], by simp⟩

/-- C1: in every trace of a well-formed order, the payment call is issued
and its outcome observed strictly before the shipping call is issued and
before the invoicing leg's first event; and the trace set contains both
relative orders of the shipping call and the invoicing start, so the two
concurrent legs have no ordering guarantee relative to each other. -/
theorem C1_payment_before_fanout (tid body : String) (env : Env) (t : List Event)
    (o : Order) (hdec : decodeOrder body = .ok o) (ht : HandlerTrace tid body env t) :
    (Before (.callIssued .paymentGw tid (paymentPayload o))
        (.callIssued .shippingGw tid (shippingPayload o)) t ∧
     Before (.callOutcome .paymentGw env.paymentRes)
        (.callIssued .shippingGw tid (shippingPayload o)) t ∧
     Before (.callIssued .paymentGw tid (paymentPayload o))
        (.spanEvent "Start generating invoice" .noAttr) t ∧
     Before (.callOutcome .paymentGw env.paymentRes)
        (.spanEvent "Start generating invoice" .noAttr) t) ∧
    (∃ t₁, HandlerTrace tid body env t₁ ∧
      Before (.callIssued .shippingGw tid (shippingPayload o))
        (.spanEvent "Start generating invoice" .noAttr) t₁) ∧
    (∃ t₂, HandlerTrace tid body env t₂ ∧
      Before (.spanEvent "Start generating invoice" .noAttr)
        (.callIssued .shippingGw tid (shippingPayload o)) t₂) := by
  obtain ⟨w, hw, rfl⟩ := handlerTrace_ok hdec ht
  have hship : Event.callIssued .shippingGw tid (shippingPayload o) ∈ w :=
    hw.mem_left _ (by simp [shippingEvents])
  have hinv : Event.spanEvent "Start generating invoice" .noAttr ∈ w :=
    hw.mem_right _ (by simp [invoiceEvents])
  refine ⟨⟨(before_payment_of_mem hship).1, (before_payment_of_mem hship).2,
    (before_payment_of_mem hinv).1, (before_payment_of_mem hinv).2⟩, ?_, ?_⟩
  · refine ⟨paymentEvents tid o env.paymentRes ++
      (shippingEvents tid o env.shippingRes ++ invoiceEvents) ++
      [.respond 200 (respBody tid)],
      Or.inr ⟨o, hdec, _, interleave_append _ _, rfl⟩,
      paymentEvents tid o env.paymentRes,
      .callOutcome .shippingGw env.shippingRes ::
        (classifyEventsShipping env.shippingRes ++
          [.legDone .shippingLeg (shippingFlag env.shippingRes)]),
      [.spanEvent "Successfully invoice generated" .noAttr,
       .legDone .invoiceLeg true, .respond 200 (respBody tid)], ?_⟩
    simp [shippingEvents, invoiceEvents]
  · refine ⟨paymentEvents tid o env.paymentRes ++
      (invoiceEvents ++ shippingEvents tid o env.shippingRes) ++
      [.respond 200 (respBody tid)],
      Or.inr ⟨o, hdec, _, interleave_append_swap _ _, rfl⟩,
      paymentEvents tid o env.paymentRes,
      [.spanEvent "Successfully invoice generated" .noAttr,
       .legDone .invoiceLeg true],
      .callOutcome .shippingGw env.shippingRes ::
        (classifyEventsShipping env.shippingRes ++
          [.legDone .shippingLeg (shippingFlag env.shippingRes)]) ++
        [.respond 200 (respBody tid)], ?_⟩
    simp [shippingEvents, invoiceEvents]

/-- Witness for C1: a concrete well-formed body and a concrete schedule. -/
theorem C1_payment_before_fanout_witness :
    Before (.callIssued .paymentGw "t1" (paymentPayload ⟨"", "", "", "", []⟩))
      (.callIssued .shippingGw "t1" (shippingPayload ⟨"", "", "", "", []⟩))
      (paymentEvents "t1" ⟨"", "", "", "", []⟩ (.httpStatus 200) ++
        (shippingEvents "t1" ⟨"", "", "", "", []⟩ (.httpStatus 200) ++ invoiceEvents) ++
        [.respond 200 (respBody "t1")]) := by
  have h := C1_payment_before_fanout "t1" "\x7b\x7d" ⟨.httpStatus 200, .httpStatus 200⟩ _
    ⟨"", "", "", "", []⟩ rfl (Or.inr ⟨_, rfl, _, interleave_append _ _, rfl⟩)
  exact h.1.1

/-- C2: in every trace of a well-formed order, the shipping leg's
completion signal and the invoicing leg's completion signal both precede the
response write, and exactly one response event occurs — for every
environment, so a failed leg changes nothing about the join. -/
theorem C2_join_before_response (tid body : String) (env : Env) (t : List Event)
    (o : Order) (hdec : decodeOrder body = .ok o) (ht : HandlerTrace tid body env t) :
    Before (.legDone .shippingLeg (shippingFlag env.shippingRes))
      (.respond 200 (respBody tid)) t ∧
    Before (.legDone .invoiceLeg true) (.respond 200 (respBody tid)) t ∧
    t.countP isRespond = 1 := by
  obtain ⟨w, hw, rfl⟩ := handlerTrace_ok hdec ht
  have hshipDone : Event.legDone .shippingLeg (shippingFlag env.shippingRes) ∈ w :=
    hw.mem_left _ (by simp [shippingEvents])
  have hinvDone : Event.legDone .invoiceLeg true ∈ w :=
    hw.mem_right _ (by simp [invoiceEvents])
  refine ⟨before_last_of_mem hshipDone, before_last_of_mem hinvDone, ?_⟩
  have hpe : (paymentEvents tid o env.paymentRes).countP isRespond = 0 := by
    apply List.countP_eq_zero.mpr
    intro x hx
    rcases mem_paymentEvents hx with rfl | rfl | ⟨n, a, rfl⟩ <;> simp [isRespond]
  have hww : w.countP isRespond = 0 := by
    rw [interleave_countP isRespond hw]
    have h₁ : (shippingEvents tid o env.shippingRes).countP isRespond = 0 := by
      apply List.countP_eq_zero.mpr
      intro x hx
      rcases mem_shippingEvents hx with rfl | rfl | ⟨n, a, rfl⟩ | rfl <;> simp [isRespond]
    have h₂ : invoiceEvents.countP isRespond = 0 := by
      apply List.countP_eq_zero.mpr
      intro x hx
      rcases mem_invoiceEvents hx with ⟨n, rfl⟩ | rfl <;> simp [isRespond]
    simp [h₁, h₂]
  simp [List.countP_append, hpe, hww, isRespond]

/-- Witness for C2: the join signals precede the response on a concrete
trace in which the shipping call was rejected with status 503. -/
theorem C2_join_before_response_witness :
    Before (.legDone .shippingLeg (shippingFlag (.httpStatus 503)))
      (.respond 200 (respBody "t2"))
      (paymentEvents "t2" ⟨"", "", "", "", []⟩ (.httpStatus 200) ++
        (shippingEvents "t2" ⟨"", "", "", "", []⟩ (.httpStatus 503) ++ invoiceEvents) ++
        [.respond 200 (respBody "t2")]) := by
  have h := C2_join_before_response "t2" "\x7b\x7d" ⟨.httpStatus 200, .httpStatus 503⟩ _
    ⟨"", "", "", "", []⟩ rfl (Or.inr ⟨_, rfl, _, interleave_append _ _, rfl⟩)
  exact h.1

/-- C3: in every trace of a well-formed order, whatever the outcomes of
the collaborator calls, the response is the final 200 write, no non-200
response exists, both legs complete, and each failure is recorded as the
corresponding span annotation. -/
theorem C3_failure_isolation (tid body : String) (env : Env) (t : List Event)
    (o : Order) (hdec : decodeOrder body = .ok o) (ht : HandlerTrace tid body env t) :
    t.getLast? = some (.respond 200 (respBody tid)) ∧
    (∀ s b, Event.respond s b ∈ t → s = 200) ∧
    Event.legDone .invoiceLeg true ∈ t ∧
    Event.legDone .shippingLeg (shippingFlag env.shippingRes) ∈ t ∧
    (∀ e, env.shippingRes = .transportError e →
      Event.spanEvent "Error sending request" (.strAttr "err" e) ∈ t) ∧
    (∀ s, env.shippingRes = .httpStatus s → s ≠ 200 →
      Event.spanEvent "Error Shipping Gateway" (.intAttr "status" s) ∈ t) ∧
    (∀ e, env.paymentRes = .transportError e →
      Event.spanEvent "Error sending request" (.strAttr "err" e) ∈ t) ∧
    (∀ s, env.paymentRes = .httpStatus s → s ≠ 200 →
      Event.spanEvent "Error Payment Gateway" (.intAttr "status" s) ∈ t) := by
  refine ⟨trace_getLast_ok hdec ht, fun s b hm => (trace_respond_ok hdec ht s b hm).1,
    ?_, ?_, ?_, ?_, ?_, ?_⟩ <;>
    obtain ⟨w, hw, rfl⟩ := handlerTrace_ok hdec ht
  · have : Event.legDone .invoiceLeg true ∈ w :=
      hw.mem_right _ (by simp [invoiceEvents])
    simp [this]
  · have : Event.legDone .shippingLeg (shippingFlag env.shippingRes) ∈ w :=
      hw.mem_left _ (by simp [shippingEvents])
    simp [this]
  · intro e he
    have : Event.spanEvent "Error sending request" (.strAttr "err" e) ∈ w := by
      apply hw.mem_left
      simp [shippingEvents, he, classifyEventsShipping]
    simp [this]
  · intro s hs hne
    have : Event.spanEvent "Error Shipping Gateway" (.intAttr "status" s) ∈ w := by
      apply hw.mem_left
      simp [shippingEvents, hs, classifyEventsShipping, hne]
    simp [this]
  · intro e he
    simp [paymentEvents, he, classifyEventsPayment]
  · intro s hs hne
    simp [paymentEvents, hs, classifyEventsPayment, hne]

/-- Witness for C3: shipping transport failure, invoicing still completes
and the trace still ends in the 200 response. -/
theorem C3_failure_isolation_witness :
    Event.legDone .invoiceLeg true ∈
      (paymentEvents "t3" ⟨"", "", "", "", []⟩ (.httpStatus 200) ++
        (shippingEvents "t3" ⟨"", "", "", "", []⟩ (.transportError "dial tcp: no such host") ++
          invoiceEvents) ++
        [.respond 200 (respBody "t3")]) := by
  have h := C3_failure_isolation "t3" "\x7b\x7d"
    ⟨.httpStatus 200, .transportError "dial tcp: no such host"⟩ _
    ⟨"", "", "", "", []⟩ rfl (Or.inr ⟨_, rfl, _, interleave_append _ _, rfl⟩)
  exact h.2.2.1

/-- C5: each collaborator invocation issues exactly one HTTP request,
records exactly one classification span event — determined by which of the
three outcome kinds occurred, carrying the error text or the status code —
and no outcome kind stops the handler from writing its 200 response. -/
theorem C5_outcome_classification (tid : String) (o : Order) (res : CollabResult) :
    (paymentEvents tid o res).countP isCallIssued = 1 ∧
    (shippingEvents tid o res).countP isCallIssued = 1 ∧
    (classifyEventsPayment res).length = 1 ∧
    (classifyEventsShipping res).length = 1 ∧
    (∀ e, res = .transportError e →
      classify res = .transport_error ∧
      classifyEventsPayment res = [.spanEvent "Error sending request" (.strAttr "err" e)] ∧
      classifyEventsShipping res = [.spanEvent "Error sending request" (.strAttr "err" e)]) ∧
    (∀ s, res = .httpStatus s → s ≠ 200 →
      classify res = .rejected ∧
      classifyEventsPayment res = [.spanEvent "Error Payment Gateway" (.intAttr "status" s)] ∧
      classifyEventsShipping res = [.spanEvent "Error Shipping Gateway" (.intAttr "status" s)]) ∧
    (res = .httpStatus 200 →
      classify res = .ok ∧
      classifyEventsPayment res = [.spanEvent "Successfully payment handeled" .noAttr] ∧
      classifyEventsShipping res = [.spanEvent "Successfully shipping handeled" .noAttr]) ∧
    (∀ body env t o', decodeOrder body = .ok o' → HandlerTrace tid body env t →
      t.getLast? = some (.respond 200 (respBody tid)) ∧
      t.countP isCallIssued = 2) := by
  have hclp : (classifyEventsPayment res).countP isCallIssued = 0 := by
    apply List.countP_eq_zero.mpr
    intro x hx
    obtain ⟨n, a, rfl⟩ := mem_classifyPayment hx
    simp [isCallIssued]
  have hcls : (classifyEventsShipping res).countP isCallIssued = 0 := by
    apply List.countP_eq_zero.mpr
    intro x hx
    obtain ⟨n, a, rfl⟩ := mem_classifyShipping hx
    simp [isCallIssued]
  have hpe : (paymentEvents tid o res).countP isCallIssued = 1 := by
    simp [paymentEvents, List.countP_cons, hclp, isCallIssued]
  have hse : ∀ o'' res'', (shippingEvents tid o'' res'').countP isCallIssued = 1 := by
    intro o'' res''
    have h : (classifyEventsShipping res'').countP isCallIssued = 0 := by
      apply List.countP_eq_zero.mpr
      intro x hx
      obtain ⟨n, a, rfl⟩ := mem_classifyShipping hx
      simp [isCallIssued]
    simp [shippingEvents, List.countP_cons, List.countP_append, h, isCallIssued]
  refine ⟨hpe, hse o res, ?_, ?_, ?_, ?_, ?_, ?_⟩
  · cases res with
    | transportError e => simp [classifyEventsPayment]
    | httpStatus s => by_cases hs : s = 200 <;> simp [classifyEventsPayment, hs]
  · cases res with
    | transportError e => simp [classifyEventsShipping]
    | httpStatus s => by_cases hs : s = 200 <;> simp [classifyEventsShipping, hs]
  · rintro e rfl
    exact ⟨rfl, rfl, rfl⟩
  · rintro s rfl hne
    exact ⟨by simp [classify, hne], by simp [classifyEventsPayment, hne],
      by simp [classifyEventsShipping, hne]⟩
  · rintro rfl
    exact ⟨rfl, rfl, rfl⟩
  · intro body env t o' hdec ht
    refine ⟨trace_getLast_ok hdec ht, ?_⟩
    obtain ⟨w, hw, rfl⟩ := handlerTrace_ok hdec ht
    have hinv : invoiceEvents.countP isCallIssued = 0 := by
      apply List.countP_eq_zero.mpr
      intro x hx
      rcases mem_invoiceEvents hx with ⟨n, rfl⟩ | rfl <;> simp [isCallIssued]
    have hwc : w.countP isCallIssued = 1 := by
      rw [interleave_countP isCallIssued hw, hse o' env.shippingRes, hinv]
    have hpe' : (paymentEvents tid o' env.paymentRes).countP isCallIssued = 1 := by
      have h : (classifyEventsPayment env.paymentRes).countP isCallIssued = 0 := by
        apply List.countP_eq_zero.mpr
        intro x hx
        obtain ⟨n, a, rfl⟩ := mem_classifyPayment hx
        simp [isCallIssued]
      simp [paymentEvents, List.countP_cons, h, isCallIssued]
    simp [List.countP_append, hpe', hwc, isCallIssued]

/-- Witness for C5: the rejected kind at status 500 yields exactly the
status-annotated span event, and the count facts at a concrete trace. -/
theorem C5_outcome_classification_witness :
    classify (.httpStatus 500) = .rejected ∧
    classifyEventsShipping (.httpStatus 500) =
      [.spanEvent "Error Shipping Gateway" (.intAttr "status" 500)] ∧
    (paymentEvents "t5" ⟨"", "", "", "", []⟩ (.httpStatus 500) ++
      (shippingEvents "t5" ⟨"", "", "", "", []⟩ (.httpStatus 500) ++ invoiceEvents) ++
      ([.respond 200 (respBody "t5")] : List Event)).countP isCallIssued = 2 := by
  have h := C5_outcome_classification "t5" ⟨"", "", "", "", []⟩ (.httpStatus 500)
  have h500 := h.2.2.2.2.2.1 500 rfl (by decide)
  have htr := h.2.2.2.2.2.2.2 "\x7b\x7d" ⟨.httpStatus 500, .httpStatus 500⟩ _
    ⟨"", "", "", "", []⟩ rfl (Or.inr ⟨_, rfl, _, interleave_append _ _, rfl⟩)
  exact ⟨h500.1, h500.2.2, htr.2⟩

/-- C6 counterexample: the payment payload of an order with an empty
basket carries `"amount":12` — the source hardcodes the literal `12` and the
`calcAmount` call is commented out — not the claimed `0`. -/
theorem C6_counterexample :
    paymentPayload ⟨"Bob", "1 Main St", "credit", "dhl", []⟩ =
      "\x7b\"name\":\"Bob\", \"amount\":12, \"method\":\"credit\"\x7d" ∧
    paymentAmount ≠ 0 := by
  constructor
  · rfl
  · decide

/-- C6 amended: for every well-formed order with an empty basket the
amount sent to the payment collaborator is the hardcoded `12`; the
(uncalled) amount calculation would indeed yield `0` on the empty basket,
and the response is still 200. -/
theorem C6_amount_empty_basket (tid body : String) (env : Env) (t : List Event)
    (o : Order) (randomFactor : Nat) (hdec : decodeOrder body = .ok o)
    (hb : o.basket = []) (ht : HandlerTrace tid body env t) :
    paymentAmount = 12 ∧
    calcAmountTotal o.basket randomFactor = 0 ∧
    Event.callIssued .paymentGw tid (paymentPayload o) ∈ t ∧
    t.getLast? = some (.respond 200 (respBody tid)) := by
  obtain ⟨w, hw, rfl⟩ := handlerTrace_ok hdec ht
  refine ⟨rfl, by simp [calcAmountTotal, hb], by simp [paymentEvents], ?_⟩
  exact trace_getLast_ok hdec (Or.inr ⟨o, hdec, w, hw, rfl⟩)

/-- Witness for C6 (amended) at the concrete body `{"basket":[]}`. -/
theorem C6_amount_empty_basket_witness :
    paymentAmount = 12 ∧ calcAmountTotal [] 7 = 0 := by
  have h := C6_amount_empty_basket "t6" "\x7b\"basket\":[]\x7d" ⟨.httpStatus 200, .httpStatus 200⟩ _
    ⟨"", "", "", "", []⟩ 7 rfl rfl (Or.inr ⟨_, rfl, _, interleave_append _ _, rfl⟩)
  exact ⟨h.1, h.2.1⟩

/-- C7: one trace identifier is shared by the whole transaction — the
200 response body embeds exactly the context's trace id, and every outbound
collaborator request of the trace carries that same trace id. -/
theorem C7_trace_propagation (tid body : String) (env : Env) (t : List Event)
    (o : Order) (hdec : decodeOrder body = .ok o) (ht : HandlerTrace tid body env t) :
    t.getLast? = some (.respond 200 (respBody tid)) ∧
    respBody tid = "\x7b\"trace-id\": \"" ++ tid ++ "\"\x7d\n" ∧
    (∀ c tid' p, Event.callIssued c tid' p ∈ t → tid' = tid) := by
  refine ⟨trace_getLast_ok hdec ht, rfl, ?_⟩
  obtain ⟨w, hw, rfl⟩ := handlerTrace_ok hdec ht
  intro c tid' p hmem
  simp only [List.mem_append, List.mem_singleton] at hmem
  rcases hmem with (hmem | hmem) | hmem
  · rcases mem_paymentEvents hmem with h | h | ⟨n, a, h⟩
    · injection h with h₁ h₂ h₃
    · cases h
    · cases h
  · rcases hw.mem _ hmem with h | h
    · rcases mem_shippingEvents h with h | h | ⟨n, a, h⟩ | h
      · injection h with h₁ h₂ h₃
      · cases h
      · cases h
      · cases h
    · rcases mem_invoiceEvents h with ⟨n, h⟩ | h <;> cases h
  · cases hmem

/-- Witness for C7 on a concrete trace. -/
theorem C7_trace_propagation_witness :
    respBody "4bf92f3577b34da6a3ce929d0e0e4736" =
      "\x7b\"trace-id\": \"" ++ "4bf92f3577b34da6a3ce929d0e0e4736" ++ "\"\x7d\n" := by
  have h := C7_trace_propagation "4bf92f3577b34da6a3ce929d0e0e4736" "\x7b\x7d"
    ⟨.httpStatus 200, .httpStatus 200⟩ _ ⟨"", "", "", "", []⟩ rfl
    (Or.inr ⟨_, rfl, _, interleave_append _ _, rfl⟩)
  exact h.2.1

/-- C8 counterexample: the shipping goroutine's boolean is not a success
flag in the spec's sense — on a rejected outcome (status 500, a failure per
the three-kind classification) the channel still carries `true`. -/
theorem C8_counterexample :
    shippingFlag (.httpStatus 500) = true ∧
    classify (.httpStatus 500) ≠ .ok ∧
    ¬(shippingFlag (.httpStatus 500) = true ↔ classify (.httpStatus 500) = .ok) := by
  decide

/-- C8 amended: each concurrent leg signals a boolean on its channel —
`false` only for a shipping transport error, `true` for any received HTTP
response (even a rejected one), and always `true` for invoicing; the
orchestrator joins on both channels but discards the values, and the
response is emitted regardless of them. -/
theorem C8_completion_flags (tid body : String) (env : Env) (t : List Event)
    (o : Order) (hdec : decodeOrder body = .ok o) (ht : HandlerTrace tid body env t) :
    (∀ e, env.shippingRes = .transportError e →
      Event.legDone .shippingLeg false ∈ t) ∧
    (∀ s, env.shippingRes = .httpStatus s → Event.legDone .shippingLeg true ∈ t) ∧
    Event.legDone .invoiceLeg true ∈ t ∧
    t.getLast? = some (.respond 200 (respBody tid)) := by
  obtain ⟨w, hw, rfl⟩ := handlerTrace_ok hdec ht
  refine ⟨?_, ?_, ?_, ?_⟩
  · intro e he
    have : Event.legDone .shippingLeg false ∈ w := by
      apply hw.mem_left
      simp [shippingEvents, he, shippingFlag]
    simp [this]
  · intro s hs
    have : Event.legDone .shippingLeg true ∈ w := by
      apply hw.mem_left
      simp [shippingEvents, hs, shippingFlag]
    simp [this]
  · have : Event.legDone .invoiceLeg true ∈ w :=
      hw.mem_right _ (by simp [invoiceEvents])
    simp [this]
  · exact trace_getLast_ok hdec (Or.inr ⟨o, hdec, w, hw, rfl⟩)

/-- Witness for C8 (amended): a rejected shipping call still signals `true`. -/
theorem C8_completion_flags_witness :
    Event.legDone .shippingLeg true ∈
      (paymentEvents "t8" ⟨"", "", "", "", []⟩ (.httpStatus 200) ++
        (shippingEvents "t8" ⟨"", "", "", "", []⟩ (.httpStatus 500) ++ invoiceEvents) ++
        [.respond 200 (respBody "t8")]) := by
  have h := C8_completion_flags "t8" "\x7b\x7d" ⟨.httpStatus 200, .httpStatus 500⟩ _
    ⟨"", "", "", "", []⟩ rfl (Or.inr ⟨_, rfl, _, interleave_append _ _, rfl⟩)
  exact h.2.1 500 rfl

/-- C9: the shipping payloads are built by raw string interpolation: an
empty basket yields the one-element list `"basket":[""]` (not `[]`), both in
the back-end's shipping leg and in the shipping-gateway's `send`; the basket
items, address and vendor are spliced in verbatim, so a quote character in a
field lands unescaped in the payload. -/
theorem C9_payload_interpolation (n a p v : String) (basket : List String) :
    shippingPayload ⟨n, a, p, v, []⟩ =
      "\x7b\"address\":\"" ++ a ++ "\", \"vendor\":\"" ++ v ++ "\", \"basket\":[\"\"]\x7d" ∧
    gatewaySendPayload a [] = "\x7b\"address\":\"" ++ a ++ "\", \"basket\":[\"\"]\x7d" ∧
    shippingPayload ⟨n, a, p, v, basket⟩ =
      "\x7b\"address\":\"" ++ a ++ "\", \"vendor\":\"" ++ v ++ "\", \"basket\":[\""
        ++ String.intercalate "\",\"" basket ++ "\"]\x7d" ∧
    shippingPayload ⟨n, "1 \"Main\" St", p, "x\",\"y", []⟩ =
      "\x7b\"address\":\"1 \"Main\" St\", \"vendor\":\"x\",\"y\", \"basket\":[\"\"]\x7d" := by
  have hnil : String.intercalate "\",\"" ([] : List String) = "" := rfl
  refine ⟨?_, ?_, rfl, rfl⟩
  · simp only [shippingPayload, hnil]
    simp [String.append_assoc]
  · simp only [gatewaySendPayload, hnil]
    simp [String.append_assoc]

/-- With at least two units of fuel, an object that closes immediately
parses, whatever follows the closing brace. -/
theorem parseValue_empty_obj (k : Nat) (rest : List Char) :
    parseValue (k + 2) ('{' :: '}' :: rest) = .ok (.obj [], rest) := rfl

/-- The decoder consumes only the first JSON value: an empty object followed
by arbitrary bytes decodes to the zero-valued order. -/
theorem decodeOrder_obj_trailing (extra : String) :
    decodeOrder ("\x7b\x7d" ++ extra) = .ok ⟨"", "", "", "", []⟩ := by
  have hdata : ("\x7b\x7d" ++ extra).data = '{' :: '}' :: extra.data := by
    rw [String.data_append]
    rfl
  have h₂ : "\x7b\x7d".length = 2 := rfl
  have hlen : 2 * ("\x7b\x7d" ++ extra).length + 2 = (2 * extra.length + 4) + 2 := by
    rw [String.length_append, h₂]
    omega
  simp only [decodeOrder]
  rw [hdata, hlen, parseValue_empty_obj]
  rfl

/-- C10: the decode gate accepts any body whose first JSON value
unmarshals into the order struct — a valid object followed by arbitrary
trailing bytes, or an object with no recognized field, decodes to the
zero-valued order, and every such request proceeds to a 200 response. -/
theorem C10_decode_leniency (tid : String) (env : Env) :
    decodeOrder "\x7b\x7dgarbage" = .ok ⟨"", "", "", "", []⟩ ∧
    (∀ extra, decodeOrder ("\x7b\x7d" ++ extra) = .ok ⟨"", "", "", "", []⟩) ∧
    decodeOrder "\x7b\"foo\":1, \"nme\":\"x\"\x7dquux" = .ok ⟨"", "", "", "", []⟩ ∧
    (∀ body o t, decodeOrder body = .ok o → HandlerTrace tid body env t →
      t.getLast? = some (.respond 200 (respBody tid))) := by
  refine ⟨rfl, decodeOrder_obj_trailing, rfl, ?_⟩
  intro body o t hdec ht
  exact trace_getLast_ok hdec ht

/-- Witness for C10: the body `{}garbage` decodes and a concrete trace for
it ends in the 200 response. -/
theorem C10_decode_leniency_witness :
    decodeOrder "\x7b\x7dgarbage" = .ok ⟨"", "", "", "", []⟩ ∧
    (paymentEvents "ta" ⟨"", "", "", "", []⟩ (.httpStatus 200) ++
      (shippingEvents "ta" ⟨"", "", "", "", []⟩ (.httpStatus 200) ++ invoiceEvents) ++
      ([.respond 200 (respBody "ta")] : List Event)).getLast? =
        some (.respond 200 (respBody "ta")) := by
  have h := C10_decode_leniency "ta" ⟨.httpStatus 200, .httpStatus 200⟩
  exact ⟨h.1, h.2.2.2 "\x7b\x7dgarbage" ⟨"", "", "", "", []⟩ _ rfl
    (Or.inr ⟨_, rfl, _, interleave_append _ _, rfl⟩)⟩

end HandsOnOtel
